import Mathlib

/-!
Shallow embedding of the sreq HTTP client core (vendor/github.com/winterssy/sreq,
files `client.go` and `response.go`) and proofs of the specified properties of
its retry loop, hook chains, response wrapper, and configuration setters.

External effects (the transport round trip, context cancellation, the backoff
timer, file and body I/O) are modelled as explicit inputs: a `DoInput` records
what the world answers at one physical exchange, an `AttemptEnv` records those
answers per attempt index, and an `IOEnv` records the outcomes of the primitive
I/O operations a `Response` accessor may perform.  Body reads/closes are
tracked in an explicit `Effects` record.
-/

namespace Sreq

/-- Errors of the client, one constructor per error shape appearing in the
source: `fmt.Errorf("sreq: bad status: %d", ...)`, `&Error{Op, Err}`,
`ErrUnexpectedTransport`, the two cookie-absence errors, context errors, and
an injection `user` for arbitrary transport / hook / parse / decode errors. -/
inductive Err where
  | badStatus (actual : Nat)
  | opError (op : String) (inner : Err)
  | unexpectedTransport
  | noCookies
  | noNamedCookie
  | ctxCanceled (n : Nat)
  | user (n : Nat)
  deriving DecidableEq, Repr

/-- The raw `*http.Response` as far as the client core inspects it:
status code, the `Content-Encoding` header, `ContentLength`, whether the body
already is a `*gzip.Reader`, the body bytes, the parsed cookies, and the two
fields of the originating request that `Verbose` reads. -/
structure RawResponse where
  statusCode : Nat
  contentEncoding : String
  contentLength : Int
  bodyIsGzipReader : Bool
  body : List Nat
  cookies : List (String × String)
  reqHasGetBody : Bool
  reqContentLength : Int
  deriving DecidableEq, Repr

/-- The sreq `Response` wrapper: a raw HTTP response (possibly absent) and a
stored terminal error. -/
structure Response where
  rawResponse : Option RawResponse
  err : Option Err
  deriving DecidableEq, Repr

/-- What the world answers during one call of `Client.do`: the transport
round trip result (`c.RawClient.Do`), the pending deferred validation error
(the non-blocking read of the `req.err` channel), and whether
`gzip.NewReader` would fail on this body. -/
structure DoInput where
  transport : Except Err RawResponse
  deferredErr : Option Err
  gzipNewErr : Option Err
  deriving Repr

/-- The result of one `Client.do` call: what is assigned to
`resp.RawResponse, resp.err`, plus a ghost flag recording whether the body
was wrapped in a gzip-decompressing reader during this call. -/
structure ExchangeResult where
  raw : Option RawResponse
  err : Option Err
  wrapped : Bool
  deriving DecidableEq, Repr

/-- `strings.EqualFold`, modelled as character-wise simple case folding of
the two strings. -/
def eqFold (a b : String) : Bool :=
  a.data.map Char.toLower == b.data.map Char.toLower

/-- The gzip-wrapping condition of `Client.do`:
`strings.EqualFold(Header.Get("Content-Encoding"), "gzip") && ContentLength != 0`
and the body is not already a `*gzip.Reader`. -/
def gzipCond (raw : RawResponse) : Bool :=
  eqFold raw.contentEncoding "gzip" && raw.contentLength != 0 &&
    !raw.bodyIsGzipReader

/-- `Client.do` (client.go): perform the transport exchange; a transport error
returns immediately; a pending deferred validation error short-circuits before
any decoding; otherwise, under `gzipCond`, close the raw body and replace it
by a `gzip.NewReader`, whose construction error (nil on success) becomes this
attempt's error. -/
def clientDo (inp : DoInput) : ExchangeResult :=
  match inp.transport with
  | Except.error e => ⟨none, some e, false⟩
  | Except.ok raw =>
    match inp.deferredErr with
    | some e => ⟨some raw, some e, false⟩
    | none =>
      if gzipCond raw then
        ⟨some { raw with bodyIsGzipReader := inp.gzipNewErr.isNone },
          inp.gzipNewErr, true⟩
      else
        ⟨some raw, none, false⟩

/-- Per-attempt answers of the world inside `doWithRetry`: the `Client.do`
inputs of the i-th exchange, the value `ctx.Err()` observed right after the
i-th exchange, and — when the loop reaches the backoff `select` after attempt
i — whether `ctx.Done()` fires before the timer, with the error `ctx.Err()`
then reports. -/
structure AttemptEnv where
  attempt : Nat → DoInput
  ctxErrAfter : Nat → Option Err
  waitCancel : Nat → Option Err

/-- The sreq `RetryPolicy`: attempt budget, wait durations, trigger predicate
and backoff function; `none` marks an unset (zero-valued) field for the
field-by-field merge. -/
structure RetryPolicy where
  maxAttempts : Int
  waitTime : Nat
  maxWaitTime : Nat
  trigger : Option (Response → Bool)
  backoff : Option (Nat → Nat → Nat → Response → Nat)

/-- Modelled from the spec: `RetryPolicy.Merge` — the request.go file is not
part of the excerpt; per the spec, "Per-request policy overrides the client
default field-by-field; unset fields inherit." -/
def RetryPolicy.merge (r d : RetryPolicy) : RetryPolicy where
  maxAttempts := if r.maxAttempts = 0 then d.maxAttempts else r.maxAttempts
  waitTime := if r.waitTime = 0 then d.waitTime else r.waitTime
  maxWaitTime := if r.maxWaitTime = 0 then d.maxWaitTime else r.maxWaitTime
  trigger := r.trigger.orElse fun _ => d.trigger
  backoff := r.backoff.orElse fun _ => d.backoff

/-- Modelled from the spec: `defaultRetry` — not part of the excerpt; the spec
directs "an implementer must pick and document explicit defaults (e.g.,
MaxAttempts=1, no retry)". -/
def defaultRetry : RetryPolicy where
  maxAttempts := 1
  waitTime := 0
  maxWaitTime := 0
  trigger := some fun _ => false
  backoff := some fun _ _ _ _ => 0

/-- The merged policy's trigger as a total function (the merge with
`defaultRetry` always yields a set trigger). -/
def RetryPolicy.triggerFn (p : RetryPolicy) : Response → Bool :=
  p.trigger.getD fun _ => false

/-- The request state `doWithRetry` inspects and updates:
`RawRequest.Body != nil` and `RawRequest.GetBody != nil`. -/
structure ReqState where
  hasBody : Bool
  hasGetBody : Bool
  deriving DecidableEq, Repr

/-- Result of the attempt loop: the final `resp` state, the number of
physical exchanges performed, the attempt indices after which the body was
reset from `GetBody`, and the attempt indices after which a full backoff wait
completed. -/
structure LoopResult where
  resp : Response
  exchanges : Nat
  resets : List Nat
  waits : List Nat
  deriving Repr

/-- The `for i := 0; i < retry.MaxAttempts; i++` loop of `doWithRetry`,
with `remaining = maxAttempts - i` as the structural measure of the loop
condition.  Each iteration: one physical exchange; the post-exchange
`ctx.Err()` check (its error overrides the attempt's error); the
last-attempt check `i == retry.MaxAttempts-1`; the trigger check; the body
reset from `GetBody` when available; the backoff `select`, where context
cancellation overrides and stops the loop. -/
def retryGo (env : AttemptEnv) (trig : Response → Bool) (hasGetBody : Bool)
    (maxAttempts : Nat) (resp : Response) (i : Nat) :
    (remaining : Nat) → LoopResult
  | 0 => ⟨resp, i, [], []⟩
  | Nat.succ rem =>
    let ex := clientDo (env.attempt i)
    let resp1 : Response := ⟨ex.raw, ex.err⟩
    match env.ctxErrAfter i with
    | some e => ⟨⟨resp1.rawResponse, some e⟩, i + 1, [], []⟩
    | none =>
      if i = maxAttempts - 1 then ⟨resp1, i + 1, [], []⟩
      else if !trig resp1 then ⟨resp1, i + 1, [], []⟩
      else
        let resets0 : List Nat := if hasGetBody then [i] else []
        match env.waitCancel i with
        | some e => ⟨⟨resp1.rawResponse, some e⟩, i + 1, resets0, []⟩
        | none =>
          let r := retryGo env trig hasGetBody maxAttempts resp1 (i + 1) rem
          ⟨r.resp, r.exchanges, resets0 ++ r.resets, i :: r.waits⟩

/-- `Client.doWithRetry` (client.go): merge the per-request policy over the
default, drain the single-use body into a replayable provider when
`MaxAttempts > 1 && Body != nil && GetBody == nil`, bind the context, and run
the attempt loop.  Returns the loop result, whether the body was drained, and
the request state after the conversion. -/
def doWithRetry (env : AttemptEnv) (req : ReqState) (reqRetry : RetryPolicy) :
    LoopResult × Bool × ReqState :=
  let retry := reqRetry.merge defaultRetry
  let drained := retry.maxAttempts > 1 && req.hasBody && !req.hasGetBody
  let req1 := if drained then { req with hasGetBody := true } else req
  (retryGo env retry.triggerFn req1.hasGetBody retry.maxAttempts.toNat
    ⟨none, none⟩ 0 retry.maxAttempts.toNat, drained, req1)

/-- `Client.onBeforeRequest` (client.go): run the before-request hooks in
order, stopping at the first failing one.  A hook is abstracted by its
outcome (`some e` = it fails with error `e`).  Returns the error of the loop
(`nil` when every hook passes) and the number of hooks invoked. -/
def onBeforeRequest : List (Option Err) → Option Err × Nat
  | [] => (none, 0)
  | h :: t =>
    match h with
    | some e => (some e, 1)
    | none =>
      let r := onBeforeRequest t
      (r.1, r.2 + 1)

/-- An after-response hook: it receives the `*Response` and may mutate it
(in particular set or clear `resp.err`). -/
def AfterHook : Type := Response → Response

/-- `Client.onAfterResponse` (client.go): invoke each hook on the response;
after each invocation, stop when `resp.err != nil`.  Returns the final
response state and the number of hooks invoked. -/
def onAfterResponse (resp : Response) : List AfterHook → Response × Nat
  | [] => (resp, 0)
  | h :: t =>
    let resp1 := h resp
    if resp1.err ≠ none then (resp1, 1)
    else
      let r := onAfterResponse resp1 t
      (r.1, r.2 + 1)

/-- The hook chains and per-attempt world of one `Client.Do` call. -/
structure DoEnv where
  beforeHooks : List (Option Err)
  afterHooks : List AfterHook
  attempts : AttemptEnv

/-- The observable outcome of one `Client.Do` (or `Client.Send`) call:
the returned response, how many hooks of each chain were invoked, the number
of physical exchanges, whether the body was drained into a replayable
provider, and the body-reset trace. -/
structure DoResult where
  resp : Response
  beforeInvoked : Nat
  exchanges : Nat
  afterInvoked : Nat
  drained : Bool
  resets : List Nat

/-- `Client.Do` (client.go): start from `new(Response)`; a before-request
hook failure short-circuits to a response carrying only that error; otherwise
run the retry loop and then the after-response chain. -/
def Do (env : DoEnv) (req : ReqState) (reqRetry : RetryPolicy) : DoResult :=
  let b := onBeforeRequest env.beforeHooks
  match b.1 with
  | some e =>
    { resp := ⟨none, some e⟩, beforeInvoked := b.2, exchanges := 0,
      afterInvoked := 0, drained := false, resets := [] }
  | none =>
    let r := doWithRetry env.attempts req reqRetry
    let a := onAfterResponse r.1.resp env.afterHooks
    { resp := a.1, beforeInvoked := b.2, exchanges := r.1.exchanges,
      afterInvoked := a.2, drained := r.2.1, resets := r.1.resets }

/-- `Client.Send` (client.go): build the request with `NewRequest`; a
construction error yields `&Response{err: err}` directly; otherwise delegate
to `Do`.  Request construction is external to the excerpt, so its outcome is
taken as an input. -/
def Send (env : DoEnv) (build : Except Err (ReqState × RetryPolicy)) :
    DoResult :=
  match build with
  | Except.error e =>
    { resp := ⟨none, some e⟩, beforeInvoked := 0, exchanges := 0,
      afterInvoked := 0, drained := false, resets := [] }
  | Except.ok req => Do env req.1 req.2

/-- Body I/O effects an accessor performs on the raw response body:
how many reads and closes of `r.RawResponse.Body` it does. -/
structure Effects where
  bodyReads : Nat
  bodyCloses : Nat
  deriving DecidableEq, Repr

/-- No body I/O. -/
def Effects.none : Effects := ⟨0, 0⟩

/-- Outcomes of the primitive I/O operations the `Response` accessors may
perform: the error of `ioutil.ReadAll` on the body (nil = bytes delivered),
the JSON decode error, the `os.OpenFile` error, the `io.Copy` errors of
`Save` and `Verbose`, and the `GetBody` error inside `Verbose`. -/
structure IOEnv where
  readAllErr : Option Err
  jsonDecodeErr : Option Err
  openFileErr : Option Err
  copyErr : Option Err
  getBodyErr : Option Err
  reqCopyErr : Option Err
  deriving Repr

/-- The body bytes an accessor reads: those of the stored raw response. -/
def Response.bodyBytes (r : Response) : List Nat :=
  (r.rawResponse.map RawResponse.body).getD []

/-- `Response.Raw` (response.go): a stored error is returned unchanged;
otherwise the body is drained (`ioutil.ReadAll`) and closed. -/
def Response.RawAcc (env : IOEnv) (r : Response) :
    Except Err (List Nat) × Effects :=
  match r.err with
  | some e => (Except.error e, Effects.none)
  | none =>
    match env.readAllErr with
    | some e => (Except.error e, ⟨1, 1⟩)
    | none => (Except.ok r.bodyBytes, ⟨1, 1⟩)

/-- `Response.Text` (response.go): `Raw` with the bytes reinterpreted as a
string (`string(b)`, the identity on the byte sequence; `nil` becomes ""). -/
def Response.TextAcc (env : IOEnv) (r : Response) :
    (List Nat × Option Err) × Effects :=
  match r.RawAcc env with
  | (Except.error e, eff) => (([], some e), eff)
  | (Except.ok b, eff) => ((b, none), eff)

/-- `Response.JSON` (response.go): a stored error is returned unchanged;
otherwise the body is streamed into the JSON decoder and closed. -/
def Response.JSONAcc (env : IOEnv) (r : Response) : Option Err × Effects :=
  match r.err with
  | some e => (some e, Effects.none)
  | none => (env.jsonDecodeErr, ⟨1, 1⟩)

/-- `Response.Cookies` (response.go): a stored error is returned unchanged;
otherwise the already-received cookie list is returned, or a "cookies not
present" error when it is empty.  No body I/O either way. -/
def Response.CookiesAcc (r : Response) :
    Except Err (List (String × String)) × Effects :=
  match r.err with
  | some e => (Except.error e, Effects.none)
  | none =>
    let cs := ((r.rawResponse.map RawResponse.cookies).getD [])
    if cs.length = 0 then (Except.error Err.noCookies, Effects.none)
    else (Except.ok cs, Effects.none)

/-- `Response.Cookie` (response.go): `Cookies`, then a linear search for the
named cookie, failing with a "named cookie not present" error. -/
def Response.CookieAcc (r : Response) (name : String) :
    Except Err (String × String) × Effects :=
  match r.CookiesAcc with
  | (Except.error e, eff) => (Except.error e, eff)
  | (Except.ok cs, eff) =>
    match cs.find? (fun c => c.1 == name) with
    | some c => (Except.ok c, eff)
    | none => (Except.error Err.noNamedCookie, eff)

/-- `Response.EnsureStatus` (response.go): no-op on a stored error; on a
status-code mismatch store `fmt.Errorf("sreq: bad status: %d", actual)`;
return the same wrapper.  Performs no body I/O (the source method only
touches `Err` and `StatusCode`). -/
def Response.EnsureStatus (r : Response) (code : Nat) : Response :=
  match r.err with
  | some _ => r
  | none =>
    match r.rawResponse with
    | none => r
    | some raw =>
      if raw.statusCode ≠ code then
        { r with err := some (Err.badStatus raw.statusCode) }
      else r

/-- `Response.EnsureStatusOk` (response.go): `EnsureStatus(http.StatusOK)`. -/
def Response.EnsureStatusOk (r : Response) : Response :=
  r.EnsureStatus 200

/-- `Response.EnsureStatus2xx` (response.go): no-op on a stored error; store
a bad-status error unless `StatusCode/100 == 2`. -/
def Response.EnsureStatus2xx (r : Response) : Response :=
  match r.err with
  | some _ => r
  | none =>
    match r.rawResponse with
    | none => r
    | some raw =>
      if raw.statusCode / 100 ≠ 2 then
        { r with err := some (Err.badStatus raw.statusCode) }
      else r

/-- `Response.Save` (response.go): a stored error is returned unchanged; an
`os.OpenFile` failure is returned before the body is touched; otherwise the
body is streamed to the file and closed. -/
def Response.SaveAcc (env : IOEnv) (r : Response) : Option Err × Effects :=
  match r.err with
  | some e => (some e, Effects.none)
  | none =>
    match env.openFileErr with
    | some e => (some e, Effects.none)
    | none => (env.copyErr, ⟨1, 1⟩)

/-- `Response.Verbose` (response.go): a stored error is returned unchanged;
otherwise the request lines are written, the replayable request body (when
`GetBody != nil && ContentLength != 0`) is copied — its `GetBody`/copy errors
return before the response body is touched — and finally the response body is
copied to the writer and closed. -/
def Response.VerboseAcc (env : IOEnv) (r : Response) : Option Err × Effects :=
  match r.err with
  | some e => (some e, Effects.none)
  | none =>
    match r.rawResponse with
    | none => (none, Effects.none)
    | some raw =>
      if raw.reqHasGetBody && raw.reqContentLength != 0 then
        match env.getBodyErr with
        | some e => (some e, Effects.none)
        | none =>
          match env.reqCopyErr with
          | some e => (some e, Effects.none)
          | none => (env.copyErr, ⟨1, 1⟩)
      else (env.copyErr, ⟨1, 1⟩)

/-- The client's transport configuration as far as the proxy setters touch
it: whether the installed `RoundTripper` is an `*http.Transport`, and the
currently configured proxy function (abstracted by an identifier; `none` is
a nil proxy). -/
structure ClientState where
  transportIsHTTP : Bool
  proxy : Option Nat
  deriving DecidableEq, Repr

/-- `Client.SetProxy` (client.go): require an `*http.Transport` (else a
typed `&Error{Op: "Client.SetProxy"}`), then install the proxy function. -/
def SetProxy (c : ClientState) (p : Option Nat) : ClientState × Option Err :=
  if !c.transportIsHTTP then
    (c, some (Err.opError "Client.SetProxy" Err.unexpectedTransport))
  else
    ({ c with proxy := p }, none)

/-- `Client.SetProxyFromURL` (client.go): parse the URL — a parse failure
returns the same client with `&Error{Op: "Client.SetProxyFromURL", Err: err}`
— then `SetProxy(http.ProxyURL(fixedURL))`.  `neturl.Parse` is external
standard-library code, abstracted by the `parse` function argument; a parsed
URL is abstracted by an identifier. -/
def SetProxyFromURL (c : ClientState) (parse : String → Except Err Nat)
    (url : String) : ClientState × Option Err :=
  match parse url with
  | Except.error e =>
    (c, some (Err.opError "Client.SetProxyFromURL" e))
  | Except.ok u => SetProxy c (some u)

/-- The `resp` state produced by the j-th physical exchange alone: what
`resp.RawResponse, resp.err = c.do(req)` assigns at attempt j. -/
def attemptResult (env : AttemptEnv) (j : Nat) : Response :=
  ⟨(clientDo (env.attempt j)).raw, (clientDo (env.attempt j)).err⟩

/-- One unfolding step of the attempt loop. -/
theorem retryGo_succ (env : AttemptEnv) (trig : Response → Bool)
    (hgb : Bool) (maxA : Nat) (resp : Response) (i rem : Nat) :
    retryGo env trig hgb maxA resp i (rem + 1) =
      (let ex := clientDo (env.attempt i)
      let resp1 : Response := ⟨ex.raw, ex.err⟩
      match env.ctxErrAfter i with
      | some e => ⟨⟨resp1.rawResponse, some e⟩, i + 1, [], []⟩
      | none =>
        if i = maxA - 1 then ⟨resp1, i + 1, [], []⟩
        else if !trig resp1 then ⟨resp1, i + 1, [], []⟩
        else
          let resets0 : List Nat := if hgb then [i] else []
          match env.waitCancel i with
          | some e => ⟨⟨resp1.rawResponse, some e⟩, i + 1, resets0, []⟩
          | none =>
            let r := retryGo env trig hgb maxA resp1 (i + 1) rem
            ⟨r.resp, r.exchanges, resets0 ++ r.resets, i :: r.waits⟩) := rfl

/-- With no cancellation and an always-true trigger, the loop started at
attempt `i` with `rem ≥ 1` iterations left runs all of them: it performs
exchanges `i..i+rem-1` and keeps the result of the last one. -/
theorem retryGo_full (env : AttemptEnv) (trig : Response → Bool) (hgb : Bool)
    (maxA : Nat)
    (htrig : ∀ r, trig r = true)
    (hc : ∀ j, env.ctxErrAfter j = none)
    (hw : ∀ j, env.waitCancel j = none) :
    ∀ rem i resp, i + rem = maxA → 1 ≤ rem →
      (retryGo env trig hgb maxA resp i rem).resp =
        attemptResult env (i + rem - 1) ∧
      (retryGo env trig hgb maxA resp i rem).exchanges = i + rem := by
  have key : ∀ rem' i resp, i + rem' + 1 = maxA →
      (retryGo env trig hgb maxA resp i (rem' + 1)).resp =
        attemptResult env (i + rem') ∧
      (retryGo env trig hgb maxA resp i (rem' + 1)).exchanges =
        i + rem' + 1 := by
    intro rem'
    induction rem' with
    | zero =>
      intro i resp hsum
      rw [retryGo_succ]
      simp [hc, attemptResult, show i = maxA - 1 by omega]
    | succ r ih =>
      intro i resp hsum
      have hnotlast : ¬ i = maxA - 1 := by omega
      have h1 := ih (i + 1) (attemptResult env i) (by omega)
      have hidx : i + 1 + r = i + (r + 1) := by omega
      rw [hidx] at h1
      rw [retryGo_succ]
      simp only [attemptResult] at h1 ⊢
      simp [hc i, hw i, htrig, hnotlast]
      exact ⟨h1.1, by rw [h1.2]⟩
  intro rem i resp hsum h1
  obtain ⟨rem', rfl⟩ : ∃ r, rem = r + 1 := ⟨rem - 1, by omega⟩
  have hidx : i + (rem' + 1) - 1 = i + rem' := by omega
  rw [hidx]
  exact key rem' i resp (by omega)

/-- Full run of `doWithRetry`: with `MaxAttempts = N ≥ 1`, an always-true
trigger and no cancellation, all `N` attempts execute and the last one's
result is kept. -/
theorem doWithRetry_full (env : AttemptEnv) (req : ReqState)
    (p : RetryPolicy) (N : Int) (trig : Response → Bool)
    (hN : p.maxAttempts = N) (hN1 : 1 ≤ N)
    (htrig : p.trigger = some trig) (htt : ∀ r, trig r = true)
    (hc : ∀ j, env.ctxErrAfter j = none)
    (hw : ∀ j, env.waitCancel j = none) :
    (doWithRetry env req p).1.exchanges = N.toNat ∧
    (doWithRetry env req p).1.resp = attemptResult env (N.toNat - 1) := by
  have hmax : (p.merge defaultRetry).maxAttempts = N := by
    simp [RetryPolicy.merge, hN]
    omega
  have htrigm : (p.merge defaultRetry).triggerFn = trig := by
    simp [RetryPolicy.merge, RetryPolicy.triggerFn, htrig, Option.orElse]
  have hfull := retryGo_full env (p.merge defaultRetry).triggerFn
    (if (decide (1 < (p.merge defaultRetry).maxAttempts) && req.hasBody &&
      !req.hasGetBody) then { req with hasGetBody := true } else req).hasGetBody
    (p.merge defaultRetry).maxAttempts.toNat
    (by rw [htrigm]; exact htt) hc hw
    (p.merge defaultRetry).maxAttempts.toNat 0 ⟨none, none⟩ (by omega)
    (by rw [hmax]; omega)
  simp only [doWithRetry]
  rw [hmax] at hfull ⊢
  exact ⟨by simpa using hfull.2, by simpa using hfull.1⟩

/-- C1: for a retry policy with `MaxAttempts = N ≥ 1` whose trigger always
returns true, and a context that is never canceled (neither after an
exchange nor during a backoff wait), `doWithRetry` performs exactly `N`
physical exchanges — never `N + 1` and never fewer — and the response keeps
the result of the `N`-th attempt. -/
theorem retry_exact_attempts (env : AttemptEnv) (req : ReqState)
    (p : RetryPolicy) (N : Int) (trig : Response → Bool)
    (hN : p.maxAttempts = N) (hN1 : 1 ≤ N)
    (htrig : p.trigger = some trig) (htt : ∀ r, trig r = true)
    (hc : ∀ j, env.ctxErrAfter j = none)
    (hw : ∀ j, env.waitCancel j = none) :
    (doWithRetry env req p).1.exchanges = N.toNat ∧
    (doWithRetry env req p).1.resp = attemptResult env (N.toNat - 1) :=
  doWithRetry_full env req p N trig hN hN1 htrig htt hc hw

/-- A concrete raw response used in witnesses. -/
def sampleRaw : RawResponse :=
  ⟨200, "", 5, false, [104, 105], [("sid", "abc")], false, 0⟩

/-- A concrete per-attempt world with no errors and no cancellation. -/
def sampleEnv : AttemptEnv :=
  ⟨fun _ => ⟨Except.ok sampleRaw, none, none⟩, fun _ => none, fun _ => none⟩

/-- A concrete request with a single-use body and no reset capability. -/
def sampleReq : ReqState := ⟨true, false⟩

/-- A concrete retry policy: 3 attempts, always retry. -/
def samplePolicy : RetryPolicy :=
  ⟨3, 1, 10, some fun _ => true, some fun _ _ _ _ => 1⟩

/-- Witness for `retry_exact_attempts` at `N = 3` and a concrete world. -/
theorem retry_exact_attempts_witness :
    (doWithRetry sampleEnv sampleReq samplePolicy).1.exchanges =
      (3 : Int).toNat ∧
    (doWithRetry sampleEnv sampleReq samplePolicy).1.resp =
      attemptResult sampleEnv ((3 : Int).toNat - 1) :=
  retry_exact_attempts sampleEnv sampleReq samplePolicy 3 (fun _ => true)
    rfl (by decide) rfl (fun _ => rfl) (fun _ => rfl) (fun _ => rfl)

/-- The `resp` argument of the loop is irrelevant while iterations remain:
the first thing an iteration does is overwrite it with the attempt's
exchange result. -/
theorem retryGo_resp_irrel (env : AttemptEnv) (trig : Response → Bool)
    (hgb : Bool) (maxA : Nat) (resp resp' : Response) (i rem : Nat)
    (h1 : 1 ≤ rem) :
    retryGo env trig hgb maxA resp i rem =
      retryGo env trig hgb maxA resp' i rem := by
  obtain ⟨rem', rfl⟩ : ∃ r, rem = r + 1 := ⟨rem - 1, by omega⟩
  rw [retryGo_succ, retryGo_succ]

/-- When every attempt before `i` is uncancelled and triggers a retry, the
loop started at 0 produces the same final response and exchange count as the
loop started at attempt `i`. -/
theorem retryGo_skip (env : AttemptEnv) (trig : Response → Bool)
    (hgb : Bool) (maxA : Nat) :
    ∀ i, i < maxA →
      (∀ j, j < i → env.ctxErrAfter j = none ∧ env.waitCancel j = none ∧
        trig (attemptResult env j) = true) →
      ∀ resp resp',
        (retryGo env trig hgb maxA resp 0 maxA).resp =
          (retryGo env trig hgb maxA resp' i (maxA - i)).resp ∧
        (retryGo env trig hgb maxA resp 0 maxA).exchanges =
          (retryGo env trig hgb maxA resp' i (maxA - i)).exchanges := by
  intro i
  induction i with
  | zero =>
    intro hi _ resp resp'
    rw [Nat.sub_zero,
      retryGo_resp_irrel env trig hgb maxA resp resp' 0 maxA (by omega)]
    exact ⟨rfl, rfl⟩
  | succ n ih =>
    intro hi hpre resp resp'
    have hstep := ih (by omega) (fun j hj => hpre j (by omega)) resp
      (attemptResult env n)
    have hsub : maxA - n = (maxA - (n + 1)) + 1 := by omega
    have hnotlast : ¬ n = maxA - 1 := by omega
    obtain ⟨hcn, hwn, htn⟩ := hpre n (by omega)
    rw [hsub, retryGo_succ] at hstep
    simp only [attemptResult] at hstep htn
    simp only [hcn, hwn, htn, hnotlast, Bool.not_true, if_false,
      ite_false, reduceCtorEq, Bool.false_eq_true] at hstep
    exact ⟨hstep.1.trans (congrArg LoopResult.resp
        (retryGo_resp_irrel env trig hgb maxA _ resp' (n + 1)
          (maxA - (n + 1)) (by omega))),
      hstep.2.trans (congrArg LoopResult.exchanges
        (retryGo_resp_irrel env trig hgb maxA _ resp' (n + 1)
          (maxA - (n + 1)) (by omega)))⟩

/-- Cancellation behaviour of the loop at the first cancelled attempt `i`:
whether observed right after the exchange or during the backoff wait, the
loop stops with `i + 1` exchanges and the cancellation error stored,
overriding the attempt's own error. -/
theorem retryGo_cancel (env : AttemptEnv) (trig : Response → Bool)
    (hgb : Bool) (maxA : Nat) (i : Nat) (hi : i < maxA)
    (hpre : ∀ j, j < i → env.ctxErrAfter j = none ∧ env.waitCancel j = none ∧
      trig (attemptResult env j) = true) :
    (∀ e, env.ctxErrAfter i = some e →
      (retryGo env trig hgb maxA ⟨none, none⟩ 0 maxA).exchanges = i + 1 ∧
      (retryGo env trig hgb maxA ⟨none, none⟩ 0 maxA).resp =
        ⟨(clientDo (env.attempt i)).raw, some e⟩) ∧
    (∀ e, env.ctxErrAfter i = none → ¬ i = maxA - 1 →
      trig (attemptResult env i) = true → env.waitCancel i = some e →
      (retryGo env trig hgb maxA ⟨none, none⟩ 0 maxA).exchanges = i + 1 ∧
      (retryGo env trig hgb maxA ⟨none, none⟩ 0 maxA).resp =
        ⟨(clientDo (env.attempt i)).raw, some e⟩) := by
  obtain ⟨hresp, hex⟩ :=
    retryGo_skip env trig hgb maxA i hi hpre ⟨none, none⟩ ⟨none, none⟩
  have hsub : maxA - i = (maxA - i - 1) + 1 := by omega
  rw [hsub, retryGo_succ] at hresp hex
  constructor
  · intro e he
    simp only [he] at hresp hex
    exact ⟨by rw [hex], by rw [hresp]⟩
  · intro e he hnl ht hwc
    simp only [attemptResult] at ht
    simp only [he, hnl, ht, hwc, Bool.not_true, if_false, ite_false,
      reduceCtorEq, Bool.false_eq_true] at hresp hex
    exact ⟨by rw [hex], by rw [hresp]⟩

/-- C2: at the first attempt `i` of the retry loop whose bound context is
cancelled — whether `ctx.Err()` is observed right after the physical
exchange, or `ctx.Done()` fires during the inter-attempt backoff wait — the
loop stops with exactly `i + 1` exchanges and the cancellation error is
stored as the response's error, overriding the attempt's own transport
error. -/
theorem retry_cancellation (env : AttemptEnv) (req : ReqState)
    (p : RetryPolicy) (N : Int) (i : Nat)
    (hN : p.maxAttempts = N) (hN1 : 1 ≤ N) (hi : i < N.toNat)
    (hpre : ∀ j, j < i → env.ctxErrAfter j = none ∧ env.waitCancel j = none ∧
      (p.merge defaultRetry).triggerFn (attemptResult env j) = true) :
    (∀ e, env.ctxErrAfter i = some e →
      (doWithRetry env req p).1.exchanges = i + 1 ∧
      (doWithRetry env req p).1.resp =
        ⟨(clientDo (env.attempt i)).raw, some e⟩) ∧
    (∀ e, env.ctxErrAfter i = none → ¬ i = N.toNat - 1 →
      (p.merge defaultRetry).triggerFn (attemptResult env i) = true →
      env.waitCancel i = some e →
      (doWithRetry env req p).1.exchanges = i + 1 ∧
      (doWithRetry env req p).1.resp =
        ⟨(clientDo (env.attempt i)).raw, some e⟩) := by
  have hmax : (p.merge defaultRetry).maxAttempts = N := by
    simp [RetryPolicy.merge, hN]
    omega
  simp only [doWithRetry, hmax]
  exact retryGo_cancel env (p.merge defaultRetry).triggerFn _ N.toNat i hi hpre

/-- A concrete world whose context cancels right after the second exchange. -/
def cancelEnv : AttemptEnv :=
  ⟨fun _ => ⟨Except.ok sampleRaw, none, none⟩,
    fun j => if j = 1 then some (Err.ctxCanceled 0) else none,
    fun _ => none⟩

/-- Witness for `retry_cancellation`: with `MaxAttempts = 3` and
cancellation observed after attempt 1, the loop stops at 2 exchanges with
the cancellation error stored. -/
theorem retry_cancellation_witness :
    (doWithRetry cancelEnv sampleReq samplePolicy).1.exchanges = 1 + 1 ∧
    (doWithRetry cancelEnv sampleReq samplePolicy).1.resp =
      ⟨(clientDo (cancelEnv.attempt 1)).raw, some (Err.ctxCanceled 0)⟩ :=
  (retry_cancellation cancelEnv sampleReq samplePolicy 3 1 rfl (by decide)
    (by decide)
    (fun j hj => by
      match j, hj with
      | 0, _ => exact ⟨rfl, rfl, rfl⟩)).1
    (Err.ctxCanceled 0) rfl

/-- The before-request chain stops at the first failing hook: with `pre`
passing hooks ahead of the failing one, it returns that hook's error and
invokes exactly `pre.length + 1` hooks. -/
theorem onBeforeRequest_fail (pre post : List (Option Err)) (e : Err)
    (hpre : ∀ x ∈ pre, x = none) :
    onBeforeRequest (pre ++ some e :: post) = (some e, pre.length + 1) := by
  induction pre with
  | nil => simp [onBeforeRequest]
  | cons h t ih =>
    have hh : h = none := hpre h (by simp)
    have ht := ih (fun x hx => hpre x (by simp [hx]))
    simp [onBeforeRequest, hh, ht]

/-- C3: when before-request hook `k` (0-based: `pre.length` passing hooks
precede it) fails with error `e`, the hooks after it are never invoked, no
physical exchange occurs, the after-response chain does not run, and `Do`
returns a response carrying exactly `e` with no raw response attached. -/
theorem before_hook_short_circuit (env : DoEnv) (req : ReqState)
    (p : RetryPolicy) (pre post : List (Option Err)) (e : Err)
    (hhooks : env.beforeHooks = pre ++ some e :: post)
    (hpre : ∀ x ∈ pre, x = none) :
    Do env req p =
      ⟨⟨none, some e⟩, pre.length + 1, 0, 0, false, []⟩ := by
  simp [Do, hhooks, onBeforeRequest_fail pre post e hpre]

/-- A concrete hook environment whose second before-request hook fails. -/
def hookEnv : DoEnv :=
  ⟨[none, some (Err.user 7), none], [], sampleEnv⟩

/-- Witness for `before_hook_short_circuit`: hook 2 of 3 fails, hook 3 never
runs, no exchange happens, the error is returned directly. -/
theorem before_hook_short_circuit_witness :
    Do hookEnv sampleReq samplePolicy =
      ⟨⟨none, some (Err.user 7)⟩, 2, 0, 0, false, []⟩ := by
  simpa using before_hook_short_circuit hookEnv sampleReq samplePolicy
    [none] [none] (Err.user 7) rfl (by simp)

/-- C10: when request construction fails, `Send` returns a response carrying
only the construction error: no before-request hook runs, no physical
exchange occurs, no after-response hook runs, and no raw response is
attached. -/
theorem send_build_failure (env : DoEnv) (e : Err)
    (build : Except Err (ReqState × RetryPolicy))
    (h : build = Except.error e) :
    Send env build = ⟨⟨none, some e⟩, 0, 0, 0, false, []⟩ := by
  simp [Send, h]

/-- Witness for `send_build_failure` at a concrete construction error. -/
theorem send_build_failure_witness :
    Send hookEnv (Except.error (Err.user 9)) =
      ⟨⟨none, some (Err.user 9)⟩, 0, 0, 0, false, []⟩ :=
  send_build_failure hookEnv (Err.user 9) (Except.error (Err.user 9)) rfl

/-- The response state after applying a prefix of the after-response chain
in registration order. -/
def chainApply (hooks : List AfterHook) (resp : Response) : Response :=
  hooks.foldl (fun r h => h r) resp

/-- C4: the after-response chain executes in registration order and stops at
the first failing hook (the first hook after whose invocation
`resp.err != nil`): it invokes exactly the hooks up to and including that
one — every earlier hook runs, no later hook runs — and returns the state
produced by it; when no hook fails, all `n` hooks are invoked. -/
theorem after_hook_chain (hooks : List AfterHook) (resp : Response) :
    (∀ k, k < hooks.length →
      (∀ j, j < k → (chainApply (hooks.take (j + 1)) resp).err = none) →
      (chainApply (hooks.take (k + 1)) resp).err ≠ none →
      onAfterResponse resp hooks =
        (chainApply (hooks.take (k + 1)) resp, k + 1)) ∧
    ((∀ j, j < hooks.length →
        (chainApply (hooks.take (j + 1)) resp).err = none) →
      onAfterResponse resp hooks = (chainApply hooks resp, hooks.length)) := by
  induction hooks generalizing resp with
  | nil =>
    exact ⟨fun k hk => absurd hk (by simp), fun _ => rfl⟩
  | cons h t ih =>
    constructor
    · intro k hk hpass hfail
      match k with
      | 0 =>
        have : (h resp).err ≠ none := by
          simpa [chainApply] using hfail
        simp [onAfterResponse, this, chainApply]
      | Nat.succ k' =>
        have h0 : (h resp).err = none := by
          simpa [chainApply] using hpass 0 (by omega)
        have hrec := (ih (h resp)).1 k' (by simpa using hk)
          (fun j hj => by
            simpa [chainApply] using hpass (j + 1) (by omega))
          (by simpa [chainApply] using hfail)
        simp [onAfterResponse, h0, hrec, chainApply]
    · intro hpass
      by_cases h0 : (h resp).err = none
      · have hrec := (ih (h resp)).2 (fun j hj => by
          simpa [chainApply] using hpass (j + 1) (by simpa using hj))
        simp [onAfterResponse, h0, hrec, chainApply]
      · exact absurd (by simpa [chainApply] using hpass 0 (by simp)) h0

/-- A concrete response entering the after-response chain error-free. -/
def wResp : Response := ⟨some sampleRaw, none⟩

/-- A concrete after-response chain whose second hook fails. -/
def wAfterHooks : List AfterHook :=
  [fun r => r, fun r => ⟨r.rawResponse, some (Err.user 3)⟩, fun r => r]

/-- Witness for `after_hook_chain`: of three hooks the second fails, so
exactly two are invoked and the chain returns the failing state. -/
theorem after_hook_chain_witness :
    onAfterResponse wResp wAfterHooks =
      (chainApply (wAfterHooks.take 2) wResp, 2) :=
  (after_hook_chain wAfterHooks wResp).1 1 (by decide)
    (fun j hj => by
      match j, hj with
      | 0, _ => exact rfl)
    (by decide)

/-- C5: every accessor of a `Response` with a stored terminal error returns
that error unchanged, performs no read or close of the body, and leaves the
wrapper state unmodified (the `EnsureStatus` family returns the wrapper
as-is). -/
theorem accessor_error_passthrough (env : IOEnv) (r : Response) (e : Err)
    (name : String) (code : Nat) (he : r.err = some e) :
    r.RawAcc env = (Except.error e, Effects.none) ∧
    r.TextAcc env = (([], some e), Effects.none) ∧
    r.JSONAcc env = (some e, Effects.none) ∧
    r.CookiesAcc = (Except.error e, Effects.none) ∧
    r.CookieAcc name = (Except.error e, Effects.none) ∧
    r.EnsureStatus code = r ∧
    r.EnsureStatusOk = r ∧
    r.EnsureStatus2xx = r ∧
    r.SaveAcc env = (some e, Effects.none) ∧
    r.VerboseAcc env = (some e, Effects.none) := by
  refine ⟨?_, ?_, ?_, ?_, ?_, ?_, ?_, ?_, ?_, ?_⟩ <;>
    simp [Response.RawAcc, Response.TextAcc, Response.JSONAcc,
      Response.CookiesAcc, Response.CookieAcc, Response.EnsureStatus,
      Response.EnsureStatusOk, Response.EnsureStatus2xx, Response.SaveAcc,
      Response.VerboseAcc, he]

/-- A concrete I/O world for the accessor witnesses: every primitive
operation succeeds. -/
def sampleIOEnv : IOEnv := ⟨none, none, none, none, none, none⟩

/-- Witness for `accessor_error_passthrough` on a response whose terminal
error is `Err.user 1`. -/
theorem accessor_error_passthrough_witness :
    (Response.mk (some sampleRaw) (some (Err.user 1))).RawAcc sampleIOEnv =
        (Except.error (Err.user 1), Effects.none) ∧
      (Response.mk (some sampleRaw) (some (Err.user 1))).TextAcc sampleIOEnv =
        (([], some (Err.user 1)), Effects.none) ∧
      (Response.mk (some sampleRaw) (some (Err.user 1))).JSONAcc sampleIOEnv =
        (some (Err.user 1), Effects.none) ∧
      (Response.mk (some sampleRaw) (some (Err.user 1))).CookiesAcc =
        (Except.error (Err.user 1), Effects.none) ∧
      (Response.mk (some sampleRaw) (some (Err.user 1))).CookieAcc "sid" =
        (Except.error (Err.user 1), Effects.none) ∧
      (Response.mk (some sampleRaw) (some (Err.user 1))).EnsureStatus 404 =
        Response.mk (some sampleRaw) (some (Err.user 1)) ∧
      (Response.mk (some sampleRaw) (some (Err.user 1))).EnsureStatusOk =
        Response.mk (some sampleRaw) (some (Err.user 1)) ∧
      (Response.mk (some sampleRaw) (some (Err.user 1))).EnsureStatus2xx =
        Response.mk (some sampleRaw) (some (Err.user 1)) ∧
      (Response.mk (some sampleRaw) (some (Err.user 1))).SaveAcc sampleIOEnv =
        (some (Err.user 1), Effects.none) ∧
      (Response.mk (some sampleRaw) (some (Err.user 1))).VerboseAcc
          sampleIOEnv =
        (some (Err.user 1), Effects.none) :=
  accessor_error_passthrough sampleIOEnv
    (Response.mk (some sampleRaw) (some (Err.user 1))) (Err.user 1)
    "sid" 404 rfl

/-- C6: on an error-free response whose status differs from `code`,
`EnsureStatus code` stores a status-assertion error naming the actual
status, keeps the same raw response on the same wrapper, and a subsequent
`Raw` call returns that assertion error with no body read or close;
`EnsureStatusOk` is `EnsureStatus 200`, and `EnsureStatus2xx` fails exactly
when the status is outside `200..299`. -/
theorem ensure_status_mismatch (env : IOEnv) (r : Response)
    (raw : RawResponse) (code : Nat)
    (he : r.err = none) (hraw : r.rawResponse = some raw)
    (hne : raw.statusCode ≠ code) :
    r.EnsureStatus code =
      { r with err := some (Err.badStatus raw.statusCode) } ∧
    (r.EnsureStatus code).rawResponse = r.rawResponse ∧
    (r.EnsureStatus code).RawAcc env =
      (Except.error (Err.badStatus raw.statusCode), Effects.none) ∧
    r.EnsureStatusOk = r.EnsureStatus 200 ∧
    ((r.EnsureStatus2xx).err ≠ none ↔
      ¬(200 ≤ raw.statusCode ∧ raw.statusCode ≤ 299)) := by
  have h1 : r.EnsureStatus code =
      { r with err := some (Err.badStatus raw.statusCode) } := by
    simp [Response.EnsureStatus, he, hraw, hne]
  refine ⟨h1, by rw [h1], by rw [h1]; simp [Response.RawAcc], rfl, ?_⟩
  simp only [Response.EnsureStatus2xx, he, hraw]
  by_cases h2 : raw.statusCode / 100 = 2
  · simp [h2, he]
    omega
  · simp [h2]
    omega

/-- Witness for `ensure_status_mismatch`: a 500 response checked against
status 200. -/
theorem ensure_status_mismatch_witness :
    (Response.mk (some { sampleRaw with statusCode := 500 }) none).EnsureStatus
        200 =
      { Response.mk (some { sampleRaw with statusCode := 500 }) none with
        err := some (Err.badStatus 500) } ∧
    ((Response.mk (some { sampleRaw with statusCode := 500 })
        none).EnsureStatus 200).rawResponse =
      (Response.mk (some { sampleRaw with statusCode := 500 })
        none).rawResponse ∧
    ((Response.mk (some { sampleRaw with statusCode := 500 })
        none).EnsureStatus 200).RawAcc sampleIOEnv =
      (Except.error (Err.badStatus 500), Effects.none) ∧
    (Response.mk (some { sampleRaw with statusCode := 500 })
        none).EnsureStatusOk =
      (Response.mk (some { sampleRaw with statusCode := 500 })
        none).EnsureStatus 200 ∧
    (((Response.mk (some { sampleRaw with statusCode := 500 })
        none).EnsureStatus2xx).err ≠ none ↔
      ¬(200 ≤ ({ sampleRaw with statusCode := 500 } :
          RawResponse).statusCode ∧
        ({ sampleRaw with statusCode := 500 } :
          RawResponse).statusCode ≤ 299)) :=
  ensure_status_mismatch sampleIOEnv
    (Response.mk (some { sampleRaw with statusCode := 500 }) none)
    { sampleRaw with statusCode := 500 } 200 rfl rfl (by decide)

/-- C7: in a physical exchange whose transport call succeeds and carries no
deferred validation error, the body is wrapped in a gzip-decompressing
reader if and only if the `Content-Encoding` header case-insensitively
equals "gzip", the content length is non-zero, and the body is not already
a decompressing reader (so decoding happens at most once per raw result);
when the wrapping reader's construction fails that failure becomes the
attempt's error; and such a failure does not abort the retry loop — the
following attempts still run. -/
theorem gzip_wrap_once (raw : RawResponse) (ge : Option Err) :
    ((clientDo ⟨Except.ok raw, none, ge⟩).wrapped = true ↔
      (raw.contentEncoding.data.map Char.toLower = "gzip".data ∧
        raw.contentLength ≠ 0 ∧ raw.bodyIsGzipReader = false)) ∧
    ((clientDo ⟨Except.ok raw, none, ge⟩).wrapped = true →
      (clientDo ⟨Except.ok raw, none, ge⟩).err = ge) ∧
    (∀ (env : AttemptEnv) (req : ReqState) (p : RetryPolicy) (N : Int)
        (trig : Response → Bool) (i : Nat) (e : Err),
      p.maxAttempts = N → 1 ≤ N →
      p.trigger = some trig → (∀ r, trig r = true) →
      (∀ j, env.ctxErrAfter j = none) → (∀ j, env.waitCancel j = none) →
      (env.attempt i).gzipNewErr = some e →
      i + 1 < N.toNat →
      i + 1 < (doWithRetry env req p).1.exchanges) := by
  refine ⟨?_, ?_, ?_⟩
  · have hg : "gzip".data.map Char.toLower = "gzip".data := by decide
    by_cases h : gzipCond raw = true
    · simp only [clientDo, h, if_true]
      simp only [gzipCond, eqFold, hg, Bool.and_eq_true, beq_iff_eq,
        bne_iff_ne, Bool.not_eq_true'] at h
      simp [h]
    · simp only [clientDo, h, if_false, Bool.false_eq_true, ite_false]
      simp only [gzipCond, eqFold, hg, Bool.and_eq_true, beq_iff_eq,
        bne_iff_ne, Bool.not_eq_true'] at h
      simp only [not_and] at h
      constructor
      · intro hfalse
        exact absurd hfalse (by simp)
      · intro ⟨h1, h2, h3⟩
        exact absurd h3 (by simpa [h1, h2] using h)
  · intro hw
    by_cases h : gzipCond raw = true
    · simp [clientDo, h]
    · simp [clientDo, h] at hw
  · intro env req p N trig i e hN hN1 htrig htt hc hwc _ hi
    have := (doWithRetry_full env req p N trig hN hN1 htrig htt hc hwc).1
    omega

/-- A concrete gzip-encoded raw response. -/
def gzipRaw : RawResponse :=
  ⟨200, "GZip", 10, false, [31, 139], [], false, 0⟩

/-- A concrete world in which every attempt's gzip reader construction
fails. -/
def gzipFailEnv : AttemptEnv :=
  ⟨fun _ => ⟨Except.ok gzipRaw, none, some (Err.user 2)⟩,
    fun _ => none, fun _ => none⟩

/-- Witness for `gzip_wrap_once`: a "GZip"-encoded response of length 10 is
wrapped, a wrapping failure is the attempt's error, and with
`MaxAttempts = 3` a wrapping failure at attempt 0 does not prevent
attempt 1. -/
theorem gzip_wrap_once_witness :
    (clientDo ⟨Except.ok gzipRaw, none, some (Err.user 2)⟩).wrapped = true ∧
    (clientDo ⟨Except.ok gzipRaw, none, some (Err.user 2)⟩).err =
      some (Err.user 2) ∧
    0 + 1 < (doWithRetry gzipFailEnv sampleReq samplePolicy).1.exchanges :=
  ⟨(gzip_wrap_once gzipRaw (some (Err.user 2))).1.mpr
      (by refine ⟨?_, ?_, ?_⟩ <;> decide),
    (gzip_wrap_once gzipRaw (some (Err.user 2))).2.1
      ((gzip_wrap_once gzipRaw (some (Err.user 2))).1.mpr
        (by refine ⟨?_, ?_, ?_⟩ <;> decide)),
    (gzip_wrap_once gzipRaw (some (Err.user 2))).2.2 gzipFailEnv sampleReq
      samplePolicy 3 (fun _ => true) 0 (Err.user 2) rfl (by decide) rfl
      (fun _ => rfl) (fun _ => rfl) (fun _ => rfl) rfl (by decide)⟩

/-- Every retried attempt is preceded by a body reset when the request has a
reset capability: if attempt `j + 1` happens, `j` is among the recorded
reset points. -/
theorem retryGo_resets_mem (env : AttemptEnv) (trig : Response → Bool)
    (maxA : Nat) :
    ∀ rem i resp j, i ≤ j →
      j + 1 < (retryGo env trig true maxA resp i rem).exchanges →
      j ∈ (retryGo env trig true maxA resp i rem).resets := by
  intro rem
  induction rem with
  | zero =>
    intro i resp j hij hj
    simp only [retryGo] at hj
    omega
  | succ rem ih =>
    intro i resp j hij hj
    rw [retryGo_succ] at hj ⊢
    cases hce : env.ctxErrAfter i with
    | some e => simp only [hce] at hj; omega
    | none =>
      simp only [hce] at hj ⊢
      by_cases hl : i = maxA - 1
      · simp only [hl, if_true, reduceIte] at hj; omega
      · simp only [hl, if_false, ite_false, reduceIte] at hj ⊢
        by_cases ht : trig ⟨(clientDo (env.attempt i)).raw,
            (clientDo (env.attempt i)).err⟩ = true
        · simp only [ht, Bool.not_true, Bool.false_eq_true, if_false,
            ite_false, reduceIte] at hj ⊢
          cases hwc : env.waitCancel i with
          | some e => simp only [hwc] at hj; omega
          | none =>
            simp only [hwc] at hj ⊢
            rcases Nat.eq_or_lt_of_le hij with heq | hlt
            · simp [← heq]
            · simp only [if_true, List.mem_append, List.mem_cons]
              right
              exact ih (i + 1) _ j hlt hj
        · simp only [Bool.not_eq_true] at ht
          simp only [ht, Bool.not_false, if_true, reduceIte] at hj
          omega

/-- C8: the single-use body is drained into a replayable provider exactly
when the merged policy's `MaxAttempts > 1` and the request carries a body
with no reset capability; with `MaxAttempts ≤ 1` or an existing reset
capability no buffering occurs; and when the request (after conversion) has
a reset capability, every retried attempt is preceded by a body reset. -/
theorem body_buffering (env : AttemptEnv) (req : ReqState)
    (p : RetryPolicy) :
    (doWithRetry env req p).2.1 =
      ((p.merge defaultRetry).maxAttempts > 1 && req.hasBody &&
        !req.hasGetBody) ∧
    ((p.merge defaultRetry).maxAttempts ≤ 1 ∨ req.hasGetBody = true →
      (doWithRetry env req p).2.1 = false) ∧
    ((doWithRetry env req p).2.2.hasGetBody = true →
      ∀ j, j + 1 < (doWithRetry env req p).1.exchanges →
        j ∈ (doWithRetry env req p).1.resets) := by
  refine ⟨rfl, ?_, ?_⟩
  · intro h
    rcases h with h | h
    · simp only [doWithRetry]
      simp [show ¬(1 < (p.merge defaultRetry).maxAttempts) by omega]
    · simp only [doWithRetry]
      simp [h]
  · intro hg j hj
    simp only [doWithRetry] at hg hj ⊢
    rw [hg] at hj ⊢
    exact retryGo_resets_mem env (p.merge defaultRetry).triggerFn
      (p.merge defaultRetry).maxAttempts.toNat
      (p.merge defaultRetry).maxAttempts.toNat 0 ⟨none, none⟩ j
      (by omega) hj

/-- Witness for `body_buffering`: `MaxAttempts = 3` with a single-use body
drains it once, and attempts 1 and 2 are each preceded by a reset. -/
theorem body_buffering_witness :
    (doWithRetry sampleEnv sampleReq samplePolicy).2.1 =
      ((samplePolicy.merge defaultRetry).maxAttempts > 1 &&
        sampleReq.hasBody && !sampleReq.hasGetBody) ∧
    0 ∈ (doWithRetry sampleEnv sampleReq samplePolicy).1.resets ∧
    1 ∈ (doWithRetry sampleEnv sampleReq samplePolicy).1.resets :=
  ⟨(body_buffering sampleEnv sampleReq samplePolicy).1,
    (body_buffering sampleEnv sampleReq samplePolicy).2.2 (by decide) 0
      (by decide),
    (body_buffering sampleEnv sampleReq samplePolicy).2.2 (by decide) 1
      (by decide)⟩

/-- C9: for every client and every URL string the parser rejects,
`SetProxyFromURL` returns the same client together with a typed
configuration error naming the failing operation, and the transport
configuration — in particular the configured proxy function — is
unchanged. -/
theorem proxy_url_parse_failure (c : ClientState)
    (parse : String → Except Err Nat) (url : String) (e : Err)
    (h : parse url = Except.error e) :
    SetProxyFromURL c parse url =
      (c, some (Err.opError "Client.SetProxyFromURL" e)) ∧
    (SetProxyFromURL c parse url).1.proxy = c.proxy := by
  have h1 : SetProxyFromURL c parse url =
      (c, some (Err.opError "Client.SetProxyFromURL" e)) := by
    simp [SetProxyFromURL, h]
  exact ⟨h1, by rw [h1]⟩

/-- Witness for `proxy_url_parse_failure`: a parser rejecting every string,
on a client with a previously configured proxy. -/
theorem proxy_url_parse_failure_witness :
    SetProxyFromURL ⟨true, some 5⟩ (fun _ => Except.error (Err.user 4))
        "http://[bad" =
      (⟨true, some 5⟩, some (Err.opError "Client.SetProxyFromURL"
        (Err.user 4))) ∧
    (SetProxyFromURL ⟨true, some 5⟩ (fun _ => Except.error (Err.user 4))
        "http://[bad").1.proxy = (ClientState.mk true (some 5)).proxy :=
  proxy_url_parse_failure ⟨true, some 5⟩ (fun _ => Except.error (Err.user 4))
    "http://[bad" (Err.user 4) rfl

end Sreq
